import Mathlib

/-!
Verification of the pragati-backend order-management core: a shallow
embedding of the socket session/group registry, the broadcast routing of
the order lifecycle handlers, and the order-progress aggregation logic
of `updateOrderProgress`, together with proofs of the specified
properties.

Conventions of the embedding:
* JS numbers used as quantities are modelled as `Int` (the code only
  adds, subtracts and compares them).
* Mongo `_id` values (always compared via `toString()`) are modelled as
  `String`.
* Wall-clock reads (`new Date()` timestamps stored in completed
  entries and in broadcast metadata) are elided: a completed entry is
  represented by its `qty_completed` value.
* A JS value that may be `undefined` is an `Option`; JS string
  truthiness (empty string is falsy) is the `truthy` predicate.
-/

namespace Pragati

/-! ## Order data model (config/db.js schema, fields used by the core) -/

inductive Status where
  | Pending
  | Completed
deriving DecidableEq, Repr

/-- team_tracking subdocument: running total, the list of completed
entries (each entry's `qty_completed`; timestamps elided) and the
per-item status. -/
structure TeamTracking where
  total_completed_qty : Int
  completed_entries : List Int
  status : Status
deriving DecidableEq, Repr

/-- One item of one section of an order's details.  Only the fields the
core reads are modelled. -/
structure Item where
  _id : String
  quantity : Int
  team_tracking : Option TeamTracking
deriving DecidableEq, Repr

/-- The four named sections of `order_details`. -/
structure OrderDetails where
  glass : List Item
  caps : List Item
  boxes : List Item
  pumps : List Item
deriving DecidableEq, Repr

structure Order where
  _id : String
  order_number : String
  order_status : Status
  order_details : OrderDetails
deriving DecidableEq, Repr

/-- The external document store, keyed by the unique `order_number`. -/
structure Store where
  orders : List Order
deriving DecidableEq, Repr

def findOrder (s : Store) (n : String) : Option Order :=
  s.orders.find? (fun o => o.order_number == n)

/-- order.save(): write the mutated document back (unique order_number). -/
def saveOrder (s : Store) (o : Order) : Store :=
  ⟨s.orders.map (fun x => if x.order_number == o.order_number then o else x)⟩

/-! ## Order Progress Aggregator (updateOrderProgress in the controller) -/

structure ProgressUpdate where
  item_id : String
  qty_completed : Int
deriving DecidableEq, Repr

def validTeamTypes : List String := ["glass", "caps", "boxes", "pumps"]

def getSection (d : OrderDetails) (t : String) : List Item :=
  if t = "glass" then d.glass
  else if t = "caps" then d.caps
  else if t = "boxes" then d.boxes
  else d.pumps

def setSection (d : OrderDetails) (t : String) (items : List Item) : OrderDetails :=
  if t = "glass" then { d with glass := items }
  else if t = "caps" then { d with caps := items }
  else if t = "boxes" then { d with boxes := items }
  else { d with pumps := items }

/-- maxAllowedQty = item.quantity - (item.team_tracking?.total_completed_qty || 0) -/
def maxAllowedQty (it : Item) : Int :=
  it.quantity - (match it.team_tracking with
    | some tr => tr.total_completed_qty
    | none => 0)

/-- The in-place mutation of one found item: create the tracking record
on first touch, otherwise add the entry, and recompute the item status
from the new total. -/
def applyToItem (it : Item) (qty : Int) : Item :=
  match it.team_tracking with
  | none =>
    let tr : TeamTracking :=
      ⟨qty, [qty], if qty ≥ it.quantity then Status.Completed else Status.Pending⟩
    { it with team_tracking := some tr }
  | some tr =>
    let total := tr.total_completed_qty + qty
    let tr' : TeamTracking :=
      ⟨total, tr.completed_entries ++ [qty],
       if total ≥ it.quantity then Status.Completed else Status.Pending⟩
    { it with team_tracking := some tr' }

/-- Replace the first item whose `_id` matches (the object `find`
returned and that the handler mutates in place). -/
def updateFirst : List Item → String → Int → List Item
  | [], _, _ => []
  | x :: xs, id, q =>
    if x._id == id then applyToItem x q :: xs else x :: updateFirst xs id q

inductive ProgressErr where
  | QuantityExceeded (item_id : String) (maxAllowed : Int)
deriving DecidableEq, Repr

/-- One iteration of the `updates.forEach` body: a missing item is
skipped with a warning (non-fatal), an over-quantity update throws. -/
def applyOne (items : List Item) (u : ProgressUpdate) : Except ProgressErr (List Item) :=
  match items.find? (fun it => it._id == u.item_id) with
  | none => Except.ok items
  | some it =>
    if u.qty_completed > maxAllowedQty it then
      Except.error (ProgressErr.QuantityExceeded u.item_id (maxAllowedQty it))
    else
      Except.ok (updateFirst items u.item_id u.qty_completed)

/-- The whole `updates.forEach` loop.  A throw aborts the loop; the
first component is the state of the section's item array at that point
(the in-memory order keeps the earlier updates). -/
def applyAll : List Item → List ProgressUpdate → List Item × Option ProgressErr
  | items, [] => (items, none)
  | items, u :: us =>
    match applyOne items u with
    | Except.error e => (items, some e)
    | Except.ok items' => applyAll items' us

/-- item.team_tracking?.status === 'Completed' || item.team_tracking?.status === undefined -/
def itemDoneOrUntouched (it : Item) : Bool :=
  match it.team_tracking with
  | some tr => tr.status == Status.Completed
  | none => true

/-- Object.values(order.order_details).every(items => items.every(...)) -/
def isOrderCompleted (d : OrderDetails) : Bool :=
  d.glass.all itemDoneOrUntouched && d.caps.all itemDoneOrUntouched
    && d.boxes.all itemDoneOrUntouched && d.pumps.all itemDoneOrUntouched

/-- The in-memory part of updateOrderProgress acting on the fetched
order document: run the batch; on success recompute `order_status`
(only ever promoting it to Completed); on a throw the mutated document
keeps the partially applied batch and the recompute is skipped. -/
def applyProgressCore (order : Order) (t : String) (us : List ProgressUpdate) :
    Order × Option ProgressErr :=
  match applyAll (getSection order.order_details t) us with
  | (mid, some e) =>
    ({ order with order_details := setSection order.order_details t mid }, some e)
  | (fin, none) =>
    let d := setSection order.order_details t fin
    ({ order with
        order_details := d,
        order_status := if isOrderCompleted d then Status.Completed else order.order_status },
     none)

/-- HTTP-level outcomes of PATCH /orders/update-progress. -/
inductive ProgressResponse where
  | invalidRequest
  | notFound
  | invalidTeamType
  | serverError (e : ProgressErr)
  | ok (o : Order)
deriving DecidableEq, Repr

/-- updateOrderProgress: request-shape check, fetch (404 if absent),
team_type validation, the update batch, and the persist step which a
thrown QuantityExceeded never reaches (caught as a 500). -/
def updateOrderProgress (store : Store) (order_number team_type : String)
    (updates : List ProgressUpdate) : Store × ProgressResponse :=
  if order_number = "" ∨ team_type = "" then
    (store, ProgressResponse.invalidRequest)
  else
    match findOrder store order_number with
    | none => (store, ProgressResponse.notFound)
    | some order =>
      if validTeamTypes.contains team_type then
        match applyProgressCore order team_type updates with
        | (o, none) => (saveOrder store o, ProgressResponse.ok o)
        | (_, some e) => (store, ProgressResponse.serverError e)
      else
        (store, ProgressResponse.invalidTeamType)

/-- A store holding one Pending order "ord1" whose glass section has a
single untouched item "i1" of the given quantity (test fixture for the
threshold claims). -/
def oneItemStore (q : Int) : Store :=
  ⟨[⟨"o1", "ord1", Status.Pending, ⟨[⟨"i1", q, none⟩], [], [], []⟩⟩]⟩

/-! ## String normalization (team?.toLowerCase().trim())

JS `toLowerCase` on the ASCII team names the server compares is the
basic-latin lowering of `Char.toLower`; JS `trim` strips whitespace
from both ends.  Both are modelled on the character list underlying
the string. -/

def trimChars (l : List Char) : List Char :=
  ((l.dropWhile Char.isWhitespace).reverse.dropWhile Char.isWhitespace).reverse

def normalize (s : String) : String :=
  String.mk (trimChars (s.data.map Char.toLower))

/-! ## Session registry and group membership (socket server, connection-keyed variant) -/

/-- The `teamMembers` table: one set of socket ids per known group. -/
structure TeamMembers where
  dispatchers : List String
  glass : List String
  cap : List String
  box : List String
  pump : List String
deriving DecidableEq, Repr

def emptyTeamMembers : TeamMembers := ⟨[], [], [], [], []⟩

def groupNames : List String := ["dispatchers", "glass", "cap", "box", "pump"]

/-- teamMembers[name] is defined exactly for the five own keys. -/
def isGroupName (g : String) : Bool := groupNames.contains g

def lookupGroup (tm : TeamMembers) (g : String) : Option (List String) :=
  if g = "dispatchers" then some tm.dispatchers
  else if g = "glass" then some tm.glass
  else if g = "cap" then some tm.cap
  else if g = "box" then some tm.box
  else if g = "pump" then some tm.pump
  else none

/-- Set.add on the modelled membership set. -/
def setAdd (l : List String) (x : String) : List String :=
  if l.contains x then l else l ++ [x]

def joinGroup (tm : TeamMembers) (g sid : String) : TeamMembers :=
  if g = "dispatchers" then { tm with dispatchers := setAdd tm.dispatchers sid }
  else if g = "glass" then { tm with glass := setAdd tm.glass sid }
  else if g = "cap" then { tm with cap := setAdd tm.cap sid }
  else if g = "box" then { tm with box := setAdd tm.box sid }
  else if g = "pump" then { tm with pump := setAdd tm.pump sid }
  else tm

/-- if (teamMembers[name]) { teamMembers[name].add(id); socket.join(name) } -/
def tryJoin (tm : TeamMembers) (g sid : String) : TeamMembers :=
  if isGroupName g then joinGroup tm g sid else tm

def memberOf (tm : TeamMembers) (g sid : String) : Bool :=
  ((lookupGroup tm g).getD []).contains sid

/-- The session identity stored in connectedUsers (fields the
membership derivation reads; team and teamType are stored normalized). -/
structure UserInfo where
  role : Option String
  team : Option String
  teamType : Option String
deriving DecidableEq, Repr

/-- JS truthiness of an optional string (undefined and "" are falsy). -/
def truthy : Option String → Bool
  | none => false
  | some s => !(s == "")

def isDispatcherRole (r : Option String) : Bool :=
  r == some "admin" || r == some "dispatcher"

/-- addUserToTeams: dispatchers by role, then the team room, then the
teamType room when it differs from team; unknown room names are
ignored because teamMembers has no such key. -/
def addUserToTeams (tm : TeamMembers) (sid : String) (ui : UserInfo) : TeamMembers :=
  let tm1 := if isDispatcherRole ui.role then joinGroup tm "dispatchers" sid else tm
  let tm2 := if truthy ui.team then tryJoin tm1 (normalize (ui.team.getD "")) sid else tm1
  if truthy ui.teamType && !(ui.teamType == ui.team) then
    tryJoin tm2 (normalize (ui.teamType.getD "")) sid
  else tm2

def removeUserFromTeams (tm : TeamMembers) (sid : String) : TeamMembers :=
  ⟨tm.dispatchers.filter (fun x => !(x == sid)),
   tm.glass.filter (fun x => !(x == sid)),
   tm.cap.filter (fun x => !(x == sid)),
   tm.box.filter (fun x => !(x == sid)),
   tm.pump.filter (fun x => !(x == sid))⟩

/-- The payload of a register event. -/
structure RegisterData where
  userId : Option String
  role : Option String
  team : Option String
  teamType : Option String
deriving DecidableEq, Repr

def mkUserInfo (d : RegisterData) : UserInfo :=
  ⟨d.role, d.team.map normalize, d.teamType.map normalize⟩

/-- The register handler's effect on the membership table: clear this
connection's memberships, then re-derive them from the new identity. -/
def registerHandler (tm : TeamMembers) (sid : String) (d : RegisterData) : TeamMembers :=
  addUserToTeams (removeUserFromTeams tm sid) sid (mkUserInfo d)

/-- Spec-side membership predicate (the amended C4 invariant): a
registration makes the connection a member of group g exactly when the
role is admin/dispatcher and g is dispatchers, or g is a recognized
group named by the normalized team or the normalized teamType. -/
def specDerivedMember (d : RegisterData) (g : String) : Bool :=
  (isDispatcherRole d.role && (g == "dispatchers"))
  || (isGroupName g
      && (some g == d.team.map normalize || some g == d.teamType.map normalize))

/-! ## Broadcast router: create-order / delete-order handlers -/

/-- One socket.io emission of the handlers: either to a room or back
to the originating socket (payloads elided except the event name). -/
inductive SocketEvent where
  | roomEmit (room : String) (event : String)
  | senderEmit (event : String)
deriving DecidableEq, Repr

/-- The four section-driven pushes shared by the create and delete
handlers (note the singular group names of this variant). -/
def deriveSectionTeams (d : OrderDetails) : List String :=
  (if d.glass.length > 0 then ["glass"] else [])
    ++ (if d.caps.length > 0 then ["cap"] else [])
    ++ (if d.boxes.length > 0 then ["box"] else [])
    ++ (if d.pumps.length > 0 then ["pump"] else [])

/-- Target-team resolution of the create-order handler: explicit
teamTypes if non-empty, else section-derived teams, else the
`unassigned` sentinel; finally normalized. -/
def resolveTargetTeams (teamTypes : Option (List String)) (d : OrderDetails) : List String :=
  let t0 := teamTypes.getD []
  let t1 := if t0.length = 0 then deriveSectionTeams d else t0
  let t2 := if t1.length = 0 then ["unassigned"] else t1
  t2.map normalize

/-- Target-team resolution of the delete-order handler (no
`unassigned` fallback; names are normalized per-emit instead). -/
def deleteTargetTeams (teamTypes : Option (List String)) (d : OrderDetails) : List String :=
  let t0 := teamTypes.getD []
  if t0.length = 0 then deriveSectionTeams d else t0

/-- create-order: reject a missing order body, else emit new-order to
every resolved room, always to dispatchers, and confirm to the sender. -/
def createOrderHandler (order : Option Order) (teamTypes : Option (List String)) :
    List SocketEvent :=
  match order with
  | none => [SocketEvent.senderEmit "order-create-error"]
  | some o =>
    let normalizedTeams := resolveTargetTeams teamTypes o.order_details
    normalizedTeams.map (fun team => SocketEvent.roomEmit team "new-order")
      ++ [SocketEvent.roomEmit "dispatchers" "new-order",
          SocketEvent.senderEmit "order-create-confirmed"]

/-- delete-order: reject a missing order or missing _id, else emit
order-deleted to the resolved rooms (when any), always to dispatchers,
and confirm to the sender. -/
def deleteOrderHandler (order : Option Order) (teamTypes : Option (List String)) :
    List SocketEvent :=
  match order with
  | none => [SocketEvent.senderEmit "order-delete-error"]
  | some o =>
    if o._id = "" then [SocketEvent.senderEmit "order-delete-error"]
    else
      let teams := deleteTargetTeams teamTypes o.order_details
      (if teams.length > 0 then
        teams.map (fun team => SocketEvent.roomEmit (normalize team) "order-deleted")
      else [])
        ++ [SocketEvent.roomEmit "dispatchers" "order-deleted",
            SocketEvent.senderEmit "order-delete-confirmed"]

/-- The events a handler run sends back to the originating socket. -/
def senderEvents (es : List SocketEvent) : List String :=
  es.filterMap (fun e => match e with
    | SocketEvent.senderEmit ev => some ev
    | SocketEvent.roomEmit _ _ => none)

/-! ## Helper lemmas -/

theorem toNat_ofNat_lower {n : Nat} (h65 : 65 ≤ n) (h90 : n ≤ 90) :
    (Char.ofNat (n + 32)).toNat = n + 32 := by
  have hv : Nat.isValidChar (n + 32) := Or.inl (by omega)
  rw [Char.ofNat, dif_pos hv]
  rfl

theorem toLower_eq_self {c : Char} (h : ¬(65 ≤ c.toNat ∧ c.toNat ≤ 90)) :
    Char.toLower c = c := by
  unfold Char.toLower
  rw [if_neg h]

theorem toLower_eq_ofNat {c : Char} (h : 65 ≤ c.toNat ∧ c.toNat ≤ 90) :
    Char.toLower c = Char.ofNat (c.toNat + 32) := by
  unfold Char.toLower
  rw [if_pos h]

theorem toLower_toLower (c : Char) : Char.toLower (Char.toLower c) = Char.toLower c := by
  by_cases h : 65 ≤ c.toNat ∧ c.toNat ≤ 90
  · rw [toLower_eq_ofNat h]
    apply toLower_eq_self
    rw [toNat_ofNat_lower h.1 h.2]
    omega
  · rw [toLower_eq_self h, toLower_eq_self h]

theorem not_whitespace_of_gt {c : Char} (h : 64 < c.toNat) : c.isWhitespace = false := by
  have h1 : c ≠ ' ' := by rintro rfl; exact absurd h (by decide)
  have h2 : c ≠ '\t' := by rintro rfl; exact absurd h (by decide)
  have h3 : c ≠ '\r' := by rintro rfl; exact absurd h (by decide)
  have h4 : c ≠ '\n' := by rintro rfl; exact absurd h (by decide)
  simp [Char.isWhitespace, h1, h2, h3, h4]

theorem isWhitespace_toLower (c : Char) : (Char.toLower c).isWhitespace = c.isWhitespace := by
  by_cases h : 65 ≤ c.toNat ∧ c.toNat ≤ 90
  · rw [toLower_eq_ofNat h]
    have ht : (Char.ofNat (c.toNat + 32)).toNat = c.toNat + 32 := toNat_ofNat_lower h.1 h.2
    rw [not_whitespace_of_gt (by rw [ht]; omega), not_whitespace_of_gt (by omega)]
  · rw [toLower_eq_self h]

theorem dropWhile_dropWhile (p : Char → Bool) (l : List Char) :
    (l.dropWhile p).dropWhile p = l.dropWhile p := by
  induction l with
  | nil => rfl
  | cons a l ih =>
    by_cases h : p a = true
    · simp [List.dropWhile_cons, h, ih]
    · simp [List.dropWhile_cons, h]

theorem dropWhile_append_singleton (p : Char → Bool) (c : Char) (zs : List Char)
    (h : p c = false) :
    (zs ++ [c]).dropWhile p = zs.dropWhile p ++ [c] := by
  induction zs with
  | nil => simp [List.dropWhile_cons, h]
  | cons z zs ih =>
    by_cases hz : p z = true
    · simp [List.dropWhile_cons, hz, ih]
    · simp [List.dropWhile_cons, hz]

theorem head_dropWhile_false (p : Char → Bool) (l : List Char) {c : Char} {u : List Char}
    (h : l.dropWhile p = c :: u) : p c = false := by
  induction l with
  | nil => simp [List.dropWhile] at h
  | cons a l ih =>
    by_cases ha : p a = true
    · rw [List.dropWhile_cons, if_pos ha] at h
      exact ih h
    · rw [List.dropWhile_cons, if_neg ha] at h
      cases h
      simpa using ha

theorem trimChars_eq (l : List Char) :
    trimChars l = match l.dropWhile Char.isWhitespace with
      | [] => []
      | c :: u => c :: ((u.reverse.dropWhile Char.isWhitespace).reverse) := by
  unfold trimChars
  cases hd : l.dropWhile Char.isWhitespace with
  | nil => simp
  | cons c u =>
    have hc : Char.isWhitespace c = false := head_dropWhile_false _ _ hd
    simp only [List.reverse_cons]
    rw [dropWhile_append_singleton _ _ _ hc]
    simp

theorem trimChars_trimChars (l : List Char) : trimChars (trimChars l) = trimChars l := by
  rw [trimChars_eq l]
  cases hd : l.dropWhile Char.isWhitespace with
  | nil => rfl
  | cons c u =>
    have hc : Char.isWhitespace c = false := head_dropWhile_false _ _ hd
    rw [trimChars_eq]
    have h1 : (c :: (u.reverse.dropWhile Char.isWhitespace).reverse).dropWhile Char.isWhitespace
        = c :: (u.reverse.dropWhile Char.isWhitespace).reverse := by
      simp [List.dropWhile_cons, hc]
    rw [h1]
    simp [dropWhile_dropWhile]

theorem map_dropWhile_comm (f : Char → Char) (p : Char → Bool)
    (h : ∀ c, p (f c) = p c) (l : List Char) :
    (l.dropWhile p).map f = (l.map f).dropWhile p := by
  induction l with
  | nil => rfl
  | cons a l ih =>
    by_cases ha : p a = true
    · simp [List.dropWhile_cons, ha, h a, ih]
    · have ha' : p a = false := by simpa using ha
      simp [List.dropWhile_cons, ha', h a]

theorem map_toLower_trimChars (l : List Char) :
    (trimChars l).map Char.toLower = trimChars (l.map Char.toLower) := by
  unfold trimChars
  rw [List.map_reverse, map_dropWhile_comm _ _ isWhitespace_toLower,
      List.map_reverse, map_dropWhile_comm _ _ isWhitespace_toLower]

theorem normalize_normalize (s : String) : normalize (normalize s) = normalize s := by
  unfold normalize
  congr 1
  show trimChars ((trimChars (s.data.map Char.toLower)).map Char.toLower)
      = trimChars (s.data.map Char.toLower)
  rw [map_toLower_trimChars]
  have h : (s.data.map Char.toLower).map Char.toLower = s.data.map Char.toLower := by
    rw [List.map_map]
    exact List.map_congr_left (fun c _ => toLower_toLower c)
  rw [h, trimChars_trimChars]

theorem applyAll_append {items mid : List Item} {us1 : List ProgressUpdate}
    (us2 : List ProgressUpdate) (h : applyAll items us1 = (mid, none)) :
    applyAll items (us1 ++ us2) = applyAll mid us2 := by
  induction us1 generalizing items with
  | nil =>
    simp only [applyAll] at h
    cases h
    simp
  | cons u us ih =>
    simp only [applyAll] at h ⊢
    cases hu : applyOne items u with
    | error e => rw [hu] at h; simp at h
    | ok items' => rw [hu] at h; exact ih h

theorem contains_ne_empty {t : String} (h : validTeamTypes.contains t = true) :
    ¬(t = "") := by
  intro he
  subst he
  simp [validTeamTypes] at h

theorem mem_setAdd_self (l : List String) (x : String) : x ∈ setAdd l x := by
  unfold setAdd
  by_cases h : l.contains x = true
  · rw [if_pos h]
    simpa using h
  · rw [if_neg h]
    simp

theorem memberOf_removeUserFromTeams_self (tm : TeamMembers) (sid g : String) :
    memberOf (removeUserFromTeams tm sid) g sid = false := by
  unfold memberOf removeUserFromTeams lookupGroup
  by_cases g1 : g = "dispatchers" <;> by_cases g2 : g = "glass"
    <;> by_cases g3 : g = "cap" <;> by_cases g4 : g = "box"
    <;> by_cases g5 : g = "pump" <;> simp_all [List.mem_filter]

theorem memberOf_joinGroup (tm : TeamMembers) (name sid g : String) :
    memberOf (joinGroup tm name sid) g sid
      = (memberOf tm g sid || (isGroupName name && (g == name))) := by
  unfold memberOf joinGroup lookupGroup isGroupName groupNames
  by_cases h1 : name = "dispatchers" <;> by_cases h2 : name = "glass"
    <;> by_cases h3 : name = "cap" <;> by_cases h4 : name = "box"
    <;> by_cases h5 : name = "pump"
    <;> by_cases g1 : g = "dispatchers" <;> by_cases g2 : g = "glass"
    <;> by_cases g3 : g = "cap" <;> by_cases g4 : g = "box"
    <;> by_cases g5 : g = "pump"
    <;> simp_all [mem_setAdd_self]

theorem isGroupName_dispatchers : isGroupName "dispatchers" = true := by decide

theorem memberOf_tryJoin (tm : TeamMembers) (name sid g : String) :
    memberOf (tryJoin tm name sid) g sid
      = (memberOf tm g sid || (isGroupName name && (g == name))) := by
  unfold tryJoin
  by_cases h : isGroupName name = true
  · rw [if_pos h, memberOf_joinGroup]
  · rw [if_neg h]
    have h2 : isGroupName name = false := by simpa using h
    simp [h2]

theorem memberOf_addUserToTeams (tm : TeamMembers) (sid : String) (ui : UserInfo) (g : String) :
    memberOf (addUserToTeams tm sid ui) g sid
      = (memberOf tm g sid
         || (isDispatcherRole ui.role && (g == "dispatchers"))
         || (truthy ui.team && (isGroupName (normalize (ui.team.getD ""))
              && (g == normalize (ui.team.getD ""))))
         || (truthy ui.teamType && !(ui.teamType == ui.team)
              && (isGroupName (normalize (ui.teamType.getD ""))
                  && (g == normalize (ui.teamType.getD ""))))) := by
  unfold addUserToTeams
  by_cases h1 : isDispatcherRole ui.role = true
    <;> by_cases h2 : truthy ui.team = true
    <;> by_cases h3 : (truthy ui.teamType && !(ui.teamType == ui.team)) = true
    <;> simp [h1, h2, h3, memberOf_tryJoin, memberOf_joinGroup,
          isGroupName_dispatchers, Bool.or_assoc]

theorem memberOf_registerHandler (tm : TeamMembers) (sid : String) (d : RegisterData) (g : String) :
    memberOf (registerHandler tm sid d) g sid = specDerivedMember d g := by
  unfold registerHandler specDerivedMember mkUserInfo
  rw [memberOf_addUserToTeams, memberOf_removeUserFromTeams_self]
  cases ht : d.team with
  | none =>
    cases htt : d.teamType with
    | none => simp [truthy]
    | some u =>
      by_cases a4 : normalize u = ""
        <;> by_cases a6 : g = normalize u
        <;> simp_all [truthy, isGroupName, groupNames, normalize_normalize, Bool.beq_eq_decide_eq]
  | some s =>
    cases htt : d.teamType with
    | none =>
      by_cases a1 : normalize s = ""
        <;> by_cases a3 : g = normalize s
        <;> simp_all [truthy, isGroupName, groupNames, normalize_normalize, Bool.beq_eq_decide_eq]
    | some u =>
      by_cases a1 : normalize s = ""
        <;> by_cases a3 : g = normalize s
        <;> by_cases a4 : normalize u = ""
        <;> by_cases a6 : g = normalize u
        <;> by_cases a7 : normalize u = normalize s
        <;> simp_all [truthy, isGroupName, groupNames, normalize_normalize, Bool.beq_eq_decide_eq]

/-! ## Claims about the Order Progress Aggregator -/

/-- C1: if an update in an ApplyProgress batch asks for more than
maxAllowed = quantity - total_completed_qty (0 without tracking), the
whole operation fails with QuantityExceeded, the offending entry is not
recorded, and the in-memory order keeps exactly the updates applied
earlier in the batch (no rollback). -/
theorem claim1_quantity_exceeded_no_rollback
    (store : Store) (n t : String) (order : Order)
    (us1 us2 : List ProgressUpdate) (u : ProgressUpdate)
    (mid : List Item) (it : Item)
    (hn : ¬(n = "")) (ht : validTeamTypes.contains t = true)
    (hfind : findOrder store n = some order)
    (hpre : applyAll (getSection order.order_details t) us1 = (mid, none))
    (hit : mid.find? (fun x => x._id == u.item_id) = some it)
    (hover : u.qty_completed > maxAllowedQty it) :
    applyProgressCore order t (us1 ++ u :: us2)
      = ({ order with order_details := setSection order.order_details t mid },
         some (ProgressErr.QuantityExceeded u.item_id (maxAllowedQty it)))
    ∧ updateOrderProgress store n t (us1 ++ u :: us2)
      = (store, ProgressResponse.serverError
          (ProgressErr.QuantityExceeded u.item_id (maxAllowedQty it))) := by
  have hone : applyOne mid u
      = Except.error (ProgressErr.QuantityExceeded u.item_id (maxAllowedQty it)) := by
    simp only [applyOne, hit, if_pos hover]
  have hall : applyAll (getSection order.order_details t) (us1 ++ u :: us2)
      = (mid, some (ProgressErr.QuantityExceeded u.item_id (maxAllowedQty it))) := by
    rw [applyAll_append _ hpre]
    simp only [applyAll, hone]
  have hcore : applyProgressCore order t (us1 ++ u :: us2)
      = ({ order with order_details := setSection order.order_details t mid },
         some (ProgressErr.QuantityExceeded u.item_id (maxAllowedQty it))) := by
    simp only [applyProgressCore, hall]
  refine ⟨hcore, ?_⟩
  simp only [updateOrderProgress, hfind, hcore, if_pos ht]
  rw [if_neg]
  intro hor
  rcases hor with h | h
  · exact hn h
  · exact contains_ne_empty ht h

/-- C1 witness: a concrete batch where the first update (4 of 10)
applies, the second (7 > 6 remaining) throws. -/
theorem claim1_witness :
    updateOrderProgress ⟨[⟨"o1", "ord1", Status.Pending, ⟨[⟨"i1", 10, none⟩], [], [], []⟩⟩]⟩
        "ord1" "glass" ([⟨"i1", 4⟩] ++ ⟨"i1", 7⟩ :: [])
      = (⟨[⟨"o1", "ord1", Status.Pending, ⟨[⟨"i1", 10, none⟩], [], [], []⟩⟩]⟩,
         ProgressResponse.serverError (ProgressErr.QuantityExceeded "i1" 6)) :=
  (claim1_quantity_exceeded_no_rollback
    ⟨[⟨"o1", "ord1", Status.Pending, ⟨[⟨"i1", 10, none⟩], [], [], []⟩⟩]⟩
    "ord1" "glass" ⟨"o1", "ord1", Status.Pending, ⟨[⟨"i1", 10, none⟩], [], [], []⟩⟩
    [⟨"i1", 4⟩] [] ⟨"i1", 7⟩
    [⟨"i1", 10, some ⟨4, [4], Status.Pending⟩⟩] ⟨"i1", 10, some ⟨4, [4], Status.Pending⟩⟩
    (by decide) (by decide) (by decide) (by decide) (by decide) (by decide)).2

/-- C9: updateOrderProgress answers NotFound when no order has the
given order_number, InvalidInput when team_type is not one of the four
sections, and an update whose item_id matches no item in the section is
skipped without aborting the rest of the batch. -/
theorem claim9_notfound_invalidinput_skip
    (store : Store) (n t : String) (us us2 : List ProgressUpdate)
    (order : Order) (items : List Item) (u : ProgressUpdate)
    (hn : ¬(n = "")) (ht : ¬(t = "")) :
    (findOrder store n = none →
      updateOrderProgress store n t us = (store, ProgressResponse.notFound))
    ∧ (findOrder store n = some order → validTeamTypes.contains t = false →
      updateOrderProgress store n t us = (store, ProgressResponse.invalidTeamType))
    ∧ (items.find? (fun x => x._id == u.item_id) = none →
      applyOne items u = Except.ok items ∧ applyAll items (u :: us2) = applyAll items us2) := by
  have hcond : ¬(n = "" ∨ t = "") := by
    intro hor
    rcases hor with h | h
    · exact hn h
    · exact ht h
  refine ⟨?_, ?_, ?_⟩
  · intro hf
    simp only [updateOrderProgress, hf, if_neg hcond]
  · intro hf hv
    simp only [updateOrderProgress, hf, hv, if_neg hcond, Bool.false_eq_true, if_false]
  · intro hmiss
    have hone : applyOne items u = Except.ok items := by
      simp only [applyOne, hmiss]
    exact ⟨hone, by simp only [applyAll, hone]⟩

/-- C9 witness: concrete instances of all three behaviors. -/
theorem claim9_witness :
    updateOrderProgress ⟨[]⟩ "ord9" "glass" [] = (⟨[]⟩, ProgressResponse.notFound)
    ∧ updateOrderProgress ⟨[⟨"o1", "ord1", Status.Pending, ⟨[], [], [], []⟩⟩]⟩ "ord1" "metal" []
        = (⟨[⟨"o1", "ord1", Status.Pending, ⟨[], [], [], []⟩⟩]⟩, ProgressResponse.invalidTeamType)
    ∧ applyAll [⟨"i1", 10, none⟩] [⟨"zz", 4⟩] = applyAll [⟨"i1", 10, none⟩] [] := by
  refine ⟨?_, ?_, ?_⟩
  · exact (claim9_notfound_invalidinput_skip ⟨[]⟩ "ord9" "glass" [] []
      ⟨"o1", "ord1", Status.Pending, ⟨[], [], [], []⟩⟩ [] ⟨"zz", 4⟩
      (by decide) (by decide)).1 (by decide)
  · exact ((claim9_notfound_invalidinput_skip ⟨[⟨"o1", "ord1", Status.Pending, ⟨[], [], [], []⟩⟩]⟩
      "ord1" "metal" [] [] ⟨"o1", "ord1", Status.Pending, ⟨[], [], [], []⟩⟩ [] ⟨"zz", 4⟩
      (by decide) (by decide)).2.1 (by decide) (by decide))
  · exact ((claim9_notfound_invalidinput_skip ⟨[]⟩ "ord9" "glass" [] [[]].head!
      ⟨"o1", "ord1", Status.Pending, ⟨[], [], [], []⟩⟩ [⟨"i1", 10, none⟩] ⟨"zz", 4⟩
      (by decide) (by decide)).2.2 (by decide)).2

/-- C10: a QuantityExceeded throw happens before the persist step, so
the failed call leaves the document store unchanged and answers a
generic server error, while the fetched in-memory order holds the
partial batch. -/
theorem claim10_store_unchanged_on_throw
    (store : Store) (n t : String) (order : Order)
    (us : List ProgressUpdate) (mid : List Item) (e : ProgressErr)
    (hn : ¬(n = "")) (ht : validTeamTypes.contains t = true)
    (hfind : findOrder store n = some order)
    (herr : applyAll (getSection order.order_details t) us = (mid, some e)) :
    updateOrderProgress store n t us = (store, ProgressResponse.serverError e)
    ∧ (applyProgressCore order t us).fst
        = { order with order_details := setSection order.order_details t mid } := by
  have hcore : applyProgressCore order t us
      = ({ order with order_details := setSection order.order_details t mid }, some e) := by
    simp only [applyProgressCore, herr]
  constructor
  · simp only [updateOrderProgress, hfind, hcore, if_pos ht]
    rw [if_neg]
    intro hor
    rcases hor with h | h
    · exact hn h
    · exact contains_ne_empty ht h
  · rw [hcore]

/-- C10 witness: the single over-quantity update leaves the store as it
was and reports a 500-class error. -/
theorem claim10_witness :
    updateOrderProgress ⟨[⟨"o1", "ord1", Status.Pending, ⟨[⟨"i1", 10, none⟩], [], [], []⟩⟩]⟩
        "ord1" "glass" [⟨"i1", 11⟩]
      = (⟨[⟨"o1", "ord1", Status.Pending, ⟨[⟨"i1", 10, none⟩], [], [], []⟩⟩]⟩,
         ProgressResponse.serverError (ProgressErr.QuantityExceeded "i1" 10)) :=
  (claim10_store_unchanged_on_throw
    ⟨[⟨"o1", "ord1", Status.Pending, ⟨[⟨"i1", 10, none⟩], [], [], []⟩⟩]⟩
    "ord1" "glass" ⟨"o1", "ord1", Status.Pending, ⟨[⟨"i1", 10, none⟩], [], [], []⟩⟩
    [⟨"i1", 11⟩] [⟨"i1", 10, none⟩] (ProgressErr.QuantityExceeded "i1" 10)
    (by decide) (by decide) (by decide) (by decide)).1

/-- C2: an applied update recomputes the item status as Completed iff
the new total reaches the quantity; a quantity-10 untouched item given
qty_completed=10 ends Completed with total 10; and two sequential
batches summing to exactly the quantity flip the status from Pending to
Completed only on the second (threshold-reaching) batch. -/
theorem claim2_item_status_threshold :
    (∀ (it : Item) (q : Int), ∃ tr : TeamTracking,
        (applyToItem it q).team_tracking = some tr
        ∧ (tr.status = Status.Completed ↔ tr.total_completed_qty ≥ it.quantity))
    ∧ (updateOrderProgress (oneItemStore 10) "ord1" "glass" [⟨"i1", 10⟩]
        = (⟨[⟨"o1", "ord1", Status.Completed,
              ⟨[⟨"i1", 10, some ⟨10, [10], Status.Completed⟩⟩], [], [], []⟩⟩]⟩,
           ProgressResponse.ok
             ⟨"o1", "ord1", Status.Completed,
              ⟨[⟨"i1", 10, some ⟨10, [10], Status.Completed⟩⟩], [], [], []⟩⟩))
    ∧ (∀ (q a b : Int), 0 < a → 0 < b → a + b = q →
        updateOrderProgress (oneItemStore q) "ord1" "glass" [⟨"i1", a⟩]
          = (⟨[⟨"o1", "ord1", Status.Pending,
                ⟨[⟨"i1", q, some ⟨a, [a], Status.Pending⟩⟩], [], [], []⟩⟩]⟩,
             ProgressResponse.ok
               ⟨"o1", "ord1", Status.Pending,
                ⟨[⟨"i1", q, some ⟨a, [a], Status.Pending⟩⟩], [], [], []⟩⟩)
        ∧ updateOrderProgress
            ⟨[⟨"o1", "ord1", Status.Pending,
              ⟨[⟨"i1", q, some ⟨a, [a], Status.Pending⟩⟩], [], [], []⟩⟩]⟩
            "ord1" "glass" [⟨"i1", b⟩]
          = (⟨[⟨"o1", "ord1", Status.Completed,
                ⟨[⟨"i1", q, some ⟨q, [a, b], Status.Completed⟩⟩], [], [], []⟩⟩]⟩,
             ProgressResponse.ok
               ⟨"o1", "ord1", Status.Completed,
                ⟨[⟨"i1", q, some ⟨q, [a, b], Status.Completed⟩⟩], [], [], []⟩⟩)) := by
  refine ⟨?_, by decide, ?_⟩
  · intro it q
    cases hmt : it.team_tracking with
    | none =>
      refine ⟨⟨q, [q], if q ≥ it.quantity then Status.Completed else Status.Pending⟩, ?_, ?_⟩
      · simp [applyToItem, hmt]
      · by_cases h : q ≥ it.quantity
        · simp [if_pos h, h]
        · simp [if_neg h, h]
    | some tr0 =>
      refine ⟨⟨tr0.total_completed_qty + q, tr0.completed_entries ++ [q],
          if tr0.total_completed_qty + q ≥ it.quantity
          then Status.Completed else Status.Pending⟩, ?_, ?_⟩
      · simp [applyToItem, hmt]
      · by_cases h : tr0.total_completed_qty + q ≥ it.quantity
        · simp [if_pos h, h]
        · simp [if_neg h, h]
  · intro q a b ha hb hab
    have hngt : ¬(a > q) := by omega
    have hnge : ¬(a ≥ q) := by omega
    have hngt2 : ¬(b > q - a) := by omega
    have hge2 : a + b ≥ q := by omega
    constructor
    · simp [updateOrderProgress, findOrder, oneItemStore, validTeamTypes,
        applyProgressCore, applyAll, applyOne, getSection, setSection,
        maxAllowedQty, updateFirst, applyToItem, isOrderCompleted,
        itemDoneOrUntouched, saveOrder, hngt, hnge]
    · simp [updateOrderProgress, findOrder, validTeamTypes,
        applyProgressCore, applyAll, applyOne, getSection, setSection,
        maxAllowedQty, updateFirst, applyToItem, isOrderCompleted,
        itemDoneOrUntouched, saveOrder, hngt2, hge2, hab]

/-- C2 witness: the two-batch run with quantity 10 split as 4 + 6. -/
theorem claim2_witness :
    updateOrderProgress (oneItemStore 10) "ord1" "glass" [⟨"i1", 4⟩]
      = (⟨[⟨"o1", "ord1", Status.Pending,
            ⟨[⟨"i1", 10, some ⟨4, [4], Status.Pending⟩⟩], [], [], []⟩⟩]⟩,
         ProgressResponse.ok
           ⟨"o1", "ord1", Status.Pending,
            ⟨[⟨"i1", 10, some ⟨4, [4], Status.Pending⟩⟩], [], [], []⟩⟩)
    ∧ updateOrderProgress
        ⟨[⟨"o1", "ord1", Status.Pending,
          ⟨[⟨"i1", 10, some ⟨4, [4], Status.Pending⟩⟩], [], [], []⟩⟩]⟩
        "ord1" "glass" [⟨"i1", 6⟩]
      = (⟨[⟨"o1", "ord1", Status.Completed,
            ⟨[⟨"i1", 10, some ⟨10, [4, 6], Status.Completed⟩⟩], [], [], []⟩⟩]⟩,
         ProgressResponse.ok
           ⟨"o1", "ord1", Status.Completed,
            ⟨[⟨"i1", 10, some ⟨10, [4, 6], Status.Completed⟩⟩], [], [], []⟩⟩) :=
  claim2_item_status_threshold.2.2 10 4 6 (by decide) (by decide) (by decide)

/-- C3 counterexample: complete item a1 (item b1 still untouched) so
the order is marked Completed; a later partial update on b1 leaves a
Pending item, yet order_status remains Completed — refuting the claimed
"iff". -/
theorem claim3_counterexample :
    updateOrderProgress
        (updateOrderProgress
          ⟨[⟨"o2", "ord2", Status.Pending,
            ⟨[⟨"a1", 5, none⟩, ⟨"b1", 5, none⟩], [], [], []⟩⟩]⟩
          "ord2" "glass" [⟨"a1", 5⟩]).fst
        "ord2" "glass" [⟨"b1", 3⟩]
      = (⟨[⟨"o2", "ord2", Status.Completed,
            ⟨[⟨"a1", 5, some ⟨5, [5], Status.Completed⟩⟩,
              ⟨"b1", 5, some ⟨3, [3], Status.Pending⟩⟩], [], [], []⟩⟩]⟩,
         ProgressResponse.ok
           ⟨"o2", "ord2", Status.Completed,
            ⟨[⟨"a1", 5, some ⟨5, [5], Status.Completed⟩⟩,
              ⟨"b1", 5, some ⟨3, [3], Status.Pending⟩⟩], [], [], []⟩⟩)
    ∧ isOrderCompleted
        ⟨[⟨"a1", 5, some ⟨5, [5], Status.Completed⟩⟩,
          ⟨"b1", 5, some ⟨3, [3], Status.Pending⟩⟩], [], [], []⟩ = false := by
  decide

/-- C3 amended: after a successful ApplyProgress, order_status is
Completed iff every item of every section is Completed-or-untracked OR
the order was already Completed before the call (the recompute only
ever promotes to Completed, never demotes). -/
theorem claim3_order_status_promotion
    (store : Store) (n t : String) (order : Order)
    (us : List ProgressUpdate) (fin : List Item)
    (hn : ¬(n = "")) (ht : validTeamTypes.contains t = true)
    (hfind : findOrder store n = some order)
    (hok : applyAll (getSection order.order_details t) us = (fin, none)) :
    updateOrderProgress store n t us
      = (saveOrder store (applyProgressCore order t us).fst,
         ProgressResponse.ok (applyProgressCore order t us).fst)
    ∧ ((applyProgressCore order t us).fst.order_status = Status.Completed
        ↔ (isOrderCompleted (setSection order.order_details t fin) = true
            ∨ order.order_status = Status.Completed)) := by
  have hcond : ¬(n = "" ∨ t = "") := by
    intro hor
    rcases hor with h | h
    · exact hn h
    · exact contains_ne_empty ht h
  have hcore : applyProgressCore order t us
      = ({ order with
            order_details := setSection order.order_details t fin,
            order_status :=
              if isOrderCompleted (setSection order.order_details t fin)
              then Status.Completed else order.order_status }, none) := by
    simp only [applyProgressCore, hok]
  constructor
  · simp only [updateOrderProgress, hfind, hcore, if_pos ht, if_neg hcond]
  · rw [hcore]
    by_cases hc : isOrderCompleted (setSection order.order_details t fin) = true
    · simp [hc]
    · simp only [Bool.not_eq_true] at hc
      simp [hc]

/-- C3 witness: completing the only item of the fixture order promotes
order_status to Completed. -/
theorem claim3_witness :
    updateOrderProgress (oneItemStore 10) "ord1" "glass" [⟨"i1", 10⟩]
      = (saveOrder (oneItemStore 10)
          (applyProgressCore
            ⟨"o1", "ord1", Status.Pending, ⟨[⟨"i1", 10, none⟩], [], [], []⟩⟩
            "glass" [⟨"i1", 10⟩]).fst,
         ProgressResponse.ok
           (applyProgressCore
             ⟨"o1", "ord1", Status.Pending, ⟨[⟨"i1", 10, none⟩], [], [], []⟩⟩
             "glass" [⟨"i1", 10⟩]).fst)
    ∧ ((applyProgressCore
          ⟨"o1", "ord1", Status.Pending, ⟨[⟨"i1", 10, none⟩], [], [], []⟩⟩
          "glass" [⟨"i1", 10⟩]).fst.order_status = Status.Completed
        ↔ (isOrderCompleted
            (setSection ⟨[⟨"i1", 10, none⟩], [], [], []⟩ "glass"
              [⟨"i1", 10, some ⟨10, [10], Status.Completed⟩⟩]) = true
            ∨ Status.Pending = Status.Completed)) :=
  claim3_order_status_promotion (oneItemStore 10) "ord1" "glass"
    ⟨"o1", "ord1", Status.Pending, ⟨[⟨"i1", 10, none⟩], [], [], []⟩⟩
    [⟨"i1", 10⟩] [⟨"i1", 10, some ⟨10, [10], Status.Completed⟩⟩]
    (by decide) (by decide) (by decide) (by decide)

/-! ## Claims about the session registry and broadcast router -/

/-- C4 counterexample: registering role="worker", team="dispatchers"
puts the connection in the dispatchers group although the role is
neither admin nor dispatcher, refuting the claimed iff. -/
theorem claim4_counterexample :
    memberOf (registerHandler emptyTeamMembers "s1"
      ⟨none, some "worker", some "dispatchers", none⟩) "dispatchers" "s1" = true
    ∧ ¬("worker" = "admin" ∨ "worker" = "dispatcher") := by
  decide

/-- C4 amended: after Register, membership in dispatchers holds iff the
role is admin/dispatcher OR the normalized team or teamType is the
string "dispatchers" (the team path checks only that the room name is a
key of teamMembers, which includes dispatchers); membership in a team
group G holds iff normalize(team) = G or normalize(teamType) = G; in
general membership equals the spec-side predicate specDerivedMember. -/
theorem claim4_membership_characterization
    (tm : TeamMembers) (sid : String) (d : RegisterData) :
    (memberOf (registerHandler tm sid d) "dispatchers" sid
      = (isDispatcherRole d.role
         || (some "dispatchers" == d.team.map normalize)
         || (some "dispatchers" == d.teamType.map normalize)))
    ∧ (memberOf (registerHandler tm sid d) "glass" sid
      = ((some "glass" == d.team.map normalize)
         || (some "glass" == d.teamType.map normalize)))
    ∧ (memberOf (registerHandler tm sid d) "cap" sid
      = ((some "cap" == d.team.map normalize)
         || (some "cap" == d.teamType.map normalize)))
    ∧ (memberOf (registerHandler tm sid d) "box" sid
      = ((some "box" == d.team.map normalize)
         || (some "box" == d.teamType.map normalize)))
    ∧ (memberOf (registerHandler tm sid d) "pump" sid
      = ((some "pump" == d.team.map normalize)
         || (some "pump" == d.teamType.map normalize)))
    ∧ (∀ g : String, memberOf (registerHandler tm sid d) g sid = specDerivedMember d g) := by
  refine ⟨?_, ?_, ?_, ?_, ?_, fun g => memberOf_registerHandler tm sid d g⟩
    <;> rw [memberOf_registerHandler]
    <;> simp [specDerivedMember, isGroupName, groupNames, Bool.or_assoc]

/-- C5: register first clears every group membership of the connection
(removeUserFromTeams), so the resulting memberships depend only on the
newly supplied identity: re-registering over any prior state yields
exactly the memberships of registering on a fresh table. -/
theorem claim5_membership_recomputed_from_scratch
    (tm : TeamMembers) (sid : String) (d : RegisterData) (g : String) :
    (∀ g2 : String, memberOf (removeUserFromTeams tm sid) g2 sid = false)
    ∧ memberOf (registerHandler tm sid d) g sid
        = memberOf (registerHandler emptyTeamMembers sid d) g sid := by
  refine ⟨fun g2 => memberOf_removeUserFromTeams_self tm sid g2, ?_⟩
  rw [memberOf_registerHandler, memberOf_registerHandler]

/-- C6 counterexample: an order whose only non-empty section is caps
resolves to the group name "cap" (this variant's key), not "caps" as
the claim states. -/
theorem claim6_counterexample :
    resolveTargetTeams none ⟨[], [⟨"c1", 5, none⟩], [], []⟩ = ["cap"]
    ∧ ¬(("caps" : String) ∈ resolveTargetTeams none ⟨[], [⟨"c1", 5, none⟩], [], []⟩) := by
  decide

/-- C6 amended: with no explicit groups, the create-order resolution
returns exactly the group names of the non-empty sections — glass,
cap, box, pump (singular names) — and falls back to the sentinel
unassigned when every section is empty. -/
theorem claim6_section_resolution (d : OrderDetails) (g : String) :
    g ∈ resolveTargetTeams none d
      ↔ ((g = "glass" ∧ d.glass ≠ []) ∨ (g = "cap" ∧ d.caps ≠ [])
         ∨ (g = "box" ∧ d.boxes ≠ []) ∨ (g = "pump" ∧ d.pumps ≠ [])
         ∨ (g = "unassigned" ∧ d.glass = [] ∧ d.caps = [] ∧ d.boxes = [] ∧ d.pumps = [])) := by
  have e1 : normalize "glass" = "glass" := by decide
  have e2 : normalize "cap" = "cap" := by decide
  have e3 : normalize "box" = "box" := by decide
  have e4 : normalize "pump" = "pump" := by decide
  have e5 : normalize "unassigned" = "unassigned" := by decide
  by_cases h1 : d.glass = [] <;> by_cases h2 : d.caps = [] <;>
    by_cases h3 : d.boxes = [] <;> by_cases h4 : d.pumps = [] <;>
    simp_all [resolveTargetTeams, deriveSectionTeams, List.length_pos,
      e1, e2, e3, e4, e5]

/-- C7: every create-order and delete-order broadcast with a valid
order payload also emits the event to the dispatchers room, whatever
the resolved target groups are. -/
theorem claim7_dispatchers_always_notified (o : Order) (tt : Option (List String)) :
    SocketEvent.roomEmit "dispatchers" "new-order" ∈ createOrderHandler (some o) tt
    ∧ (¬(o._id = "") →
        SocketEvent.roomEmit "dispatchers" "order-deleted" ∈ deleteOrderHandler (some o) tt) := by
  constructor
  · simp [createOrderHandler]
  · intro h
    simp [deleteOrderHandler, h]

/-- C7 witness: a caps-only order (resolved set containing only cap, which excludes
dispatchers) still emits both lifecycle events to dispatchers. -/
theorem claim7_witness :
    SocketEvent.roomEmit "dispatchers" "new-order"
      ∈ createOrderHandler (some ⟨"x1", "o1", Status.Pending, ⟨[], [⟨"c1", 5, none⟩], [], []⟩⟩) none
    ∧ SocketEvent.roomEmit "dispatchers" "order-deleted"
      ∈ deleteOrderHandler (some ⟨"x1", "o1", Status.Pending, ⟨[], [⟨"c1", 5, none⟩], [], []⟩⟩) none :=
  ⟨(claim7_dispatchers_always_notified
      ⟨"x1", "o1", Status.Pending, ⟨[], [⟨"c1", 5, none⟩], [], []⟩⟩ none).1,
   (claim7_dispatchers_always_notified
      ⟨"x1", "o1", Status.Pending, ⟨[], [⟨"c1", 5, none⟩], [], []⟩⟩ none).2 (by decide)⟩

/-- C8: the originating socket receives exactly one acknowledgement:
the *-error event (and nothing else, so no broadcast and no
confirmation) when the order payload is missing (no body on create, no
_id on delete), and exactly the *-confirmed event otherwise. -/
theorem claim8_ack_exactly_one (o : Order) (tt : Option (List String)) :
    (createOrderHandler none tt = [SocketEvent.senderEmit "order-create-error"])
    ∧ (senderEvents (createOrderHandler (some o) tt) = ["order-create-confirmed"])
    ∧ (deleteOrderHandler none tt = [SocketEvent.senderEmit "order-delete-error"])
    ∧ (o._id = "" → deleteOrderHandler (some o) tt = [SocketEvent.senderEmit "order-delete-error"])
    ∧ (¬(o._id = "") →
        senderEvents (deleteOrderHandler (some o) tt) = ["order-delete-confirmed"]) := by
  refine ⟨rfl, ?_, rfl, ?_, ?_⟩
  · simp [createOrderHandler, senderEvents]
  · intro h
    simp [deleteOrderHandler, h]
  · intro h
    by_cases hb : (deleteTargetTeams tt o.order_details).length > 0
      <;> simp [deleteOrderHandler, h, hb, senderEvents]

/-- C8 witness: concrete valid and invalid payloads for both handlers. -/
theorem claim8_witness :
    senderEvents (createOrderHandler
        (some ⟨"x1", "o1", Status.Pending, ⟨[], [⟨"c1", 5, none⟩], [], []⟩⟩) none)
      = ["order-create-confirmed"]
    ∧ deleteOrderHandler (some ⟨"", "o1", Status.Pending, ⟨[], [], [], []⟩⟩) none
      = [SocketEvent.senderEmit "order-delete-error"]
    ∧ senderEvents (deleteOrderHandler
        (some ⟨"x1", "o1", Status.Pending, ⟨[], [⟨"c1", 5, none⟩], [], []⟩⟩) none)
      = ["order-delete-confirmed"] :=
  ⟨(claim8_ack_exactly_one
      ⟨"x1", "o1", Status.Pending, ⟨[], [⟨"c1", 5, none⟩], [], []⟩⟩ none).2.1,
   (claim8_ack_exactly_one
      ⟨"", "o1", Status.Pending, ⟨[], [], [], []⟩⟩ none).2.2.2.1 (by decide),
   (claim8_ack_exactly_one
      ⟨"x1", "o1", Status.Pending, ⟨[], [⟨"c1", 5, none⟩], [], []⟩⟩ none).2.2.2.2 (by decide)⟩

end Pragati
